import Mathlib

/-!
Verification of the Vow reading-profile core against its specification.

The TypeScript sources are shallowly embedded as pure Lean functions:

* `MockItemRepository` (src/core/repositories/MockItemRepository.ts): the
  in-memory reference repository.  Its `Map<string, Item>` keyed by item id
  becomes a `List Item` whose ids are pairwise distinct; item identifiers
  (opaque strings compared with `localeCompare`) are modelled as naturals
  with their total order.  `simulateLatency` only delays and never changes
  state, so it has no counterpart here.
* `AddItemUseCase` (src/core/use-cases/AddItemUseCase.ts, Zod variant).
* `SearchItemsUseCase` and `UpdateReadingStreakUseCase`
  (src/core/use-cases/ShareProfileUseCase.ts bundle).
* `RateLimiter.luaScript` (src/infrastructure/rate-limit/RateLimiter.ts).

JavaScript strings become `List Char` (`toLowerCase` becomes
`Char.toLower`, which agrees on the ASCII range exercised here); `Date`
values become integer milliseconds; fractional scores become `ℚ`;
fallible calls return `Except`.
-/

namespace Vow

/-- Opaque item identifier.  The source compares ids with `localeCompare`,
a total order on strings; the embedding uses naturals with their order. -/
abbrev ItemId := Nat

/-- Owner identifier; only compared for equality by the embedded code. -/
abbrev UserId := String

/-- Timestamps in milliseconds since the epoch, as JavaScript `Date.getTime()`. -/
abbrev Millis := Int

/-- Enum ItemType from src/core/entities/Item.ts. -/
inductive ItemType
  | BOOK
  | PAPER
  | ARTICLE
  deriving DecidableEq, Repr

/-- Enum ReadingStatus from src/core/entities/Item.ts. -/
inductive ReadingStatus
  | WANT_TO_READ
  | READING
  | READ
  | SKIMMED
  deriving DecidableEq, Repr

/-- The Item entity (src/core/entities/Item.ts), with the fields the verified
operations read.  The open metadata bag is a string-to-string association list. -/
structure Item where
  id : ItemId
  userId : UserId
  type : ItemType
  title : List Char
  author : Option (List Char) := none
  url : Option (List Char) := none
  coverImage : Option (List Char) := none
  publishedYear : Option Int := none
  status : ReadingStatus := ReadingStatus.WANT_TO_READ
  rating : Option Nat := none
  notes : Option (List Char) := none
  readDate : Option Millis := none
  isPublic : Bool := false
  metadata : List (String × String) := []
  addedAt : Millis
  updatedAt : Millis
  deriving DecidableEq, Repr

/-- JavaScript `toLowerCase`, restricted to the ASCII mapping of `Char.toLower`. -/
def toLowerStr (s : List Char) : List Char := s.map Char.toLower

/-- JavaScript `text.includes(pat)`: `pat` occurs contiguously in `text`. -/
def containsSub (text pat : List Char) : Bool := decide (pat <:+: text)

/-- JavaScript `text.startsWith(pat)`. -/
def startsWithQ (text pat : List Char) : Bool := decide (pat <+: text)

/-- MockItemRepository.getTrigrams: pad with two spaces on both sides and
collect every window of three characters. -/
def getTrigrams (text : List Char) : List (List Char) :=
  let padded := [' ', ' '] ++ text ++ [' ', ' ']
  (List.range (padded.length - 2)).map (fun i => (padded.drop i).take 3)

/-- MockItemRepository.calculateSimilarity: 0 on an empty side, 1 on
case-insensitive equality, 0.8 on substring containment, 0.6 on a
qualifying start-of-string match, otherwise the trigram overlap count
divided by the larger trigram count. -/
def calculateSimilarity (text query : List Char) : ℚ :=
  if text.isEmpty || query.isEmpty then 0
  else
    let textLower := toLowerStr text
    let queryLower := toLowerStr query
    if textLower = queryLower then 1
    else if containsSub textLower queryLower then 8/10
    else if startsWithQ textLower queryLower then 6/10
    else
      let textTrigrams := getTrigrams textLower
      let queryTrigrams := getTrigrams queryLower
      let inter := textTrigrams.filter (fun t => queryTrigrams.contains t)
      (inter.length : ℚ) / (max textTrigrams.length queryTrigrams.length : ℚ)

/-- The scoring levels of the amended C5 claim: 0 on an empty side, 1.0 on
case-insensitive equality, 0.8 on substring containment (which subsumes
every start-of-string match), otherwise the trigram overlap quotient.
This is the spec-side definition used to compare against the code. -/
def similaritySpec (text query : List Char) : ℚ :=
  if text.isEmpty || query.isEmpty then 0
  else
    let textLower := toLowerStr text
    let queryLower := toLowerStr query
    if textLower = queryLower then 1
    else if containsSub textLower queryLower then 8/10
    else
      let textTrigrams := getTrigrams textLower
      let queryTrigrams := getTrigrams queryLower
      let inter := textTrigrams.filter (fun t => queryTrigrams.contains t)
      (inter.length : ℚ) / (max textTrigrams.length queryTrigrams.length : ℚ)

/-! ### ISBN and DOI validation (AddItemUseCase) -/

/-- The ASCII whitespace class of the JavaScript regex \s, as consumed by
isbn.replace with the class [-\s]. -/
def isJsSpace (c : Char) : Bool :=
  c = ' ' || c = '\t' || c = '\n' || c = '\r' || c = '\x0b' || c = '\x0c'

/-- AddItemUseCase.isValidISBN first replaces every hyphen and whitespace
character with nothing. -/
def cleanIsbn (s : List Char) : List Char :=
  s.filter (fun c => !(c = '-' || isJsSpace c))

/-- The regex digit class. -/
def isDigitCh (c : Char) : Bool := '0' ≤ c && c ≤ '9'

/-- The regex tail d-nine-times then digit-or-X: exactly ten characters, the
first nine decimal digits, the last a digit or a capital X. -/
def isbnTail10 (s : List Char) : Bool :=
  s.length == 10 && (s.take 9).all isDigitCh &&
    (match s.getLast? with
     | some c => isDigitCh c || c = 'X'
     | none => false)

/-- The anchored ISBN regex of AddItemUseCase.isValidISBN and of
AddItemDTOSchema: the optional 978-or-979 group is either skipped, leaving the
ten-character tail for the whole string, or consumed in front of the tail. -/
def matchesIsbnShape (s : List Char) : Bool :=
  isbnTail10 s ||
    (match s with
     | '9' :: '7' :: c :: rest => (c == '8' || c == '9') && isbnTail10 rest
     | _ => false)

/-- AddItemUseCase.isValidISBN: strip separators, then match the regex. -/
def isValidISBN (s : List Char) : Bool := matchesIsbnShape (cleanIsbn s)

/-- Value of an ISBN character for checksum purposes, the capital X counting
as ten. -/
def isbnCharVal (c : Char) : Nat := if c = 'X' then 10 else c.toNat - '0'.toNat

/-- Modelled from the spec: a true ISBN-10, including the mod-11 checksum with
descending weights ten down to one, which the code never computes. -/
def isChecksumISBN10 (s : List Char) : Bool :=
  s.length == 10 && (s.take 9).all isDigitCh &&
    (match s.getLast? with
     | some c => isDigitCh c || c = 'X'
     | none => false) &&
    (s.enum.map (fun p => (10 - p.1) * isbnCharVal p.2)).sum % 11 == 0

/-- Modelled from the spec: a true ISBN-13, thirteen digits opening with 978
or 979, with the alternating 1,3-weighted mod-10 checksum, which the code
never computes. -/
def isChecksumISBN13 (s : List Char) : Bool :=
  s.length == 13 && s.all isDigitCh &&
    (s.take 3 == ['9', '7', '8'] || s.take 3 == ['9', '7', '9']) &&
    (s.enum.map (fun p => (if p.1 % 2 == 0 then 1 else 3) * isbnCharVal p.2)).sum % 10 == 0

/-- The anchored DOI regex: 10 dot, four or more digits, a slash, then one or
more non-whitespace characters. -/
def matchesDoiShape (s : List Char) : Bool :=
  match s with
  | '1' :: '0' :: '.' :: rest =>
      let digits := rest.takeWhile isDigitCh
      let after := rest.dropWhile isDigitCh
      4 ≤ digits.length &&
        (match after with
         | '/' :: tail => !tail.isEmpty && tail.all (fun c => !isJsSpace c)
         | _ => false)
  | _ => false

/-! ### MockItemRepository: cursor pagination over a user's collection -/

/-- Pagination request, MockItemRepository.findByUserId options. -/
structure PaginationOptions where
  limit : Nat
  cursor : Option ItemId := none
  deriving DecidableEq, Repr

/-- Result shape of MockItemRepository.findByUserId. -/
structure PaginatedResult where
  items : List Item
  nextCursor : Option ItemId
  hasNextPage : Bool
  deriving DecidableEq, Repr

/-- The errors findByUserId throws. -/
inductive RepoError
  | invalidLimit
  | invalidCursor (c : ItemId)
  deriving DecidableEq, Repr

/-- The comparator passed to sort in findByUserId: addedAt descending, id
ascending on equal timestamps. -/
def pageOrder (a b : Item) : Prop :=
  b.addedAt < a.addedAt ∨ (a.addedAt = b.addedAt ∧ a.id ≤ b.id)

instance : DecidableRel pageOrder := fun a b => by
  unfold pageOrder
  infer_instance

instance : IsTotal Item pageOrder := by
  constructor
  intro a b
  unfold pageOrder
  rcases lt_trichotomy a.addedAt b.addedAt with h | h | h
  · exact Or.inr (Or.inl h)
  · rcases Nat.le_total a.id b.id with h2 | h2
    · exact Or.inl (Or.inr ⟨h, h2⟩)
    · exact Or.inr (Or.inr ⟨h.symm, h2⟩)
  · exact Or.inl (Or.inl h)

instance : IsTrans Item pageOrder := by
  constructor
  intro a b c hab hbc
  unfold pageOrder at *
  rcases hab with h1 | ⟨h1, h1i⟩
  · rcases hbc with h2 | ⟨h2, _⟩
    · exact Or.inl (h2.trans h1)
    · exact Or.inl (h2 ▸ h1)
  · rcases hbc with h2 | ⟨h2, h2i⟩
    · exact Or.inl (by rw [h1]; exact h2)
    · exact Or.inr ⟨h1.trans h2, h1i.trans h2i⟩

/-- The items of one user, sorted the way findByUserId sorts them before
paging.  The JavaScript comparator induces the total order pageOrder, and the
repository ids are pairwise distinct, so any correct sort produces this list. -/
def sortedUserItems (repo : List Item) (userId : UserId) : List Item :=
  List.insertionSort pageOrder (repo.filter (fun it => it.userId == userId))

/-- JavaScript Array.findIndex: index of the first element satisfying the
probe, if any. -/
def findIdxBy (p : α → Bool) : List α → Option Nat
  | [] => none
  | x :: rest => if p x then some 0 else (findIdxBy p rest).map (· + 1)

/-- One page of findByUserId once the start index is known: slice of limit
items, next cursor present exactly when the slice is full and items remain. -/
def pageAt (userItems : List Item) (startIndex limit : Nat) : PaginatedResult :=
  let pageItems := (userItems.drop startIndex).take limit
  let nextCursor :=
    if pageItems.length == limit && startIndex + limit < userItems.length
    then pageItems.getLast?.map Item.id
    else none
  { items := pageItems, nextCursor := nextCursor, hasNextPage := nextCursor.isSome }

/-- MockItemRepository.findByUserId: validate the limit, sort the user's
items, resolve the cursor to a start index (a missing cursor id is a thrown
error), and slice one page. -/
def findByUserId (repo : List Item) (userId : UserId) (options : PaginationOptions) :
    Except RepoError PaginatedResult :=
  if options.limit == 0 || 100 < options.limit then Except.error RepoError.invalidLimit
  else
    let userItems := sortedUserItems repo userId
    match options.cursor with
    | none => Except.ok (pageAt userItems 0 options.limit)
    | some c =>
        match findIdxBy (fun it => it.id == c) userItems with
        | none => Except.error (RepoError.invalidCursor c)
        | some i => Except.ok (pageAt userItems (i + 1) options.limit)

/-- Drive findByUserId the way a paginating client does: start without a
cursor, then keep passing back the returned nextCursor while hasNextPage
holds, collecting the pages.  Recursion is bounded by explicit fuel. -/
def collectPages (repo : List Item) (userId : UserId) (limit : Nat) :
    Nat → Option ItemId → Except RepoError (List (List Item))
  | 0, _ => Except.ok []
  | fuel + 1, cursor =>
      match findByUserId repo userId { limit := limit, cursor := cursor } with
      | Except.error e => Except.error e
      | Except.ok r =>
          if r.hasNextPage then
            match collectPages repo userId limit fuel r.nextCursor with
            | Except.error e => Except.error e
            | Except.ok pages => Except.ok (r.items :: pages)
          else Except.ok [r.items]

/-! ### MockItemRepository.searchWithRawQuery and the search use case -/

/-- A raw row as searchWithRawQuery shapes it, with the two similarity
columns the SQL variant would compute server-side. -/
structure RawRow where
  id : ItemId
  title : List Char
  author : Option (List Char)
  type : ItemType
  added_at : Millis
  read_date : Option Millis
  notes : Option (List Char)
  metadata : List (String × String)
  title_similarity : ℚ
  author_similarity : ℚ
  deriving DecidableEq, Repr

/-- The row constructed for one item; the query argument is the already
lowercased normalizedQuery of searchWithRawQuery, and a missing author is
scored as the empty string. -/
def rawRowOfItem (normalizedQuery : List Char) (it : Item) : RawRow :=
  { id := it.id
    title := it.title
    author := it.author
    type := it.type
    added_at := it.addedAt
    read_date := it.readDate
    notes := it.notes
    metadata := it.metadata
    title_similarity := calculateSimilarity it.title normalizedQuery
    author_similarity := calculateSimilarity (it.author.getD []) normalizedQuery }

/-- True when an optional text field contains the pattern case-insensitively;
a missing field never matches. -/
def optContains (field : Option (List Char)) (pat : List Char) : Bool :=
  match field with
  | some t => containsSub (toLowerStr t) pat
  | none => false

/-- MockItemRepository.searchWithRawQuery: filter the user's items on a
case-insensitive title, author or notes hit, shape rows, then resume after
the cursor when the cursor id is found — an unknown cursor is silently
ignored — and cut to the limit. -/
def searchWithRawQuery (repo : List Item) (userId : UserId) (query : List Char)
    (cursor : Option ItemId) (limit : Nat) : List RawRow :=
  let normalizedQuery := toLowerStr query
  let results :=
    ((repo.filter (fun it => it.userId == userId)).filter (fun it =>
        containsSub (toLowerStr it.title) normalizedQuery ||
        optContains it.author normalizedQuery ||
        optContains it.notes normalizedQuery)).map (rawRowOfItem normalizedQuery)
  let afterCursor :=
    match cursor with
    | some c =>
        match findIdxBy (fun (row : RawRow) => row.id == c) results with
        | some i => results.drop (i + 1)
        | none => results
    | none => results
  afterCursor.take limit

/-- The count the mock executeRawQuery returns for the COUNT query: items of
the user whose title or author contains the query, notes not consulted. -/
def getTotalCount (repo : List Item) (userId : UserId) (query : List Char) : Nat :=
  ((repo.filter (fun it => it.userId == userId)).filter (fun it =>
      containsSub (toLowerStr it.title) (toLowerStr query) ||
      optContains it.author (toLowerStr query))).length

/-- JavaScript Math.round: nearest integer, halves toward positive infinity. -/
def jsRound (x : ℚ) : Int := Int.floor (x + 1/2)

/-- SearchItemsUseCase.calculateRelevanceScore: twice the title similarity,
1.5 times the author similarity, a 1.0 bonus for a verbatim title hit, 0.5
for an author hit, a linear 30-day recency boost capped at 0.1, rounded to
two decimals. -/
def calculateRelevanceScore (row : RawRow) (query : List Char) (now : Millis) : ℚ :=
  let base := row.title_similarity * 2 + row.author_similarity * (3/2)
  let withTitleBonus :=
    base + (if containsSub (toLowerStr row.title) (toLowerStr query) then 1 else 0)
  let withAuthorBonus :=
    withTitleBonus + (if optContains row.author (toLowerStr query) then 1/2 else 0)
  let daysSinceAdded : ℚ := ((now - row.added_at : Int) : ℚ) / 86400000
  let score := withAuthorBonus + max 0 ((30 - daysSinceAdded) / 30) * (1/10)
  (jsRound (score * 100) : ℚ) / 100

/-- SearchItemsUseCase.generateHighlights helper: wrap every case-insensitive
occurrence of the query in mark tags, scanning left to right and resuming
after each replaced occurrence.  An empty pattern returns the text unchanged
(the validated query is never empty). -/
def highlightText (q : List Char) : List Char → List Char
  | [] => []
  | c :: rest =>
      if h : q ≠ [] ∧ toLowerStr ((c :: rest).take q.length) = toLowerStr q then
        ['<', 'm', 'a', 'r', 'k', '>'] ++ (c :: rest).take q.length ++
          ['<', '/', 'm', 'a', 'r', 'k', '>'] ++ highlightText q ((c :: rest).drop q.length)
      else c :: highlightText q rest
  termination_by l => l.length
  decreasing_by
  · simp only [List.length_drop, List.length_cons]
    have hq : 1 ≤ q.length := by
      cases hq2 : q with
      | nil => exact absurd hq2 h.1
      | cons a l => simp
    omega
  · simp

/-- Highlight of an optional, possibly empty text field: JavaScript treats a
missing or empty string as falsy and yields undefined. -/
def optHighlight (field : Option (List Char)) (q : List Char) : Option (List Char) :=
  match field with
  | some t => if t.isEmpty then none else some (highlightText q t)
  | none => none

/-- One entry of the items array the search use case returns. -/
structure SearchResult where
  id : ItemId
  title : List Char
  author : Option (List Char)
  type : ItemType
  addedAt : Millis
  readDate : Option Millis
  highlightsTitle : Option (List Char)
  highlightsAuthor : Option (List Char)
  highlightsNotes : Option (List Char)
  relevanceScore : ℚ
  deriving DecidableEq, Repr

/-- SearchItemsUseCase.mapToSearchResult. -/
def mapToSearchResult (query : List Char) (now : Millis) (row : RawRow) : SearchResult :=
  { id := row.id
    title := row.title
    author := row.author
    type := row.type
    addedAt := row.added_at
    readDate := row.read_date
    highlightsTitle := optHighlight (some row.title) query
    highlightsAuthor := optHighlight row.author query
    highlightsNotes := optHighlight row.notes query
    relevanceScore := calculateRelevanceScore row query now }

/-- Enum SortBy of the search use case. -/
inductive SortBy
  | RELEVANCE
  | DATE_ADDED
  | READ_DATE
  deriving DecidableEq, Repr

/-- The in-place sort comparator of performSearch for relevance mode:
descending relevance score. -/
def scoreOrder (a b : SearchResult) : Prop := b.relevanceScore ≤ a.relevanceScore

instance : DecidableRel scoreOrder := fun a b => by
  unfold scoreOrder
  infer_instance

/-- The response body computed by performSearch; searchTime joins later. -/
structure SearchResponseCore where
  items : List SearchResult
  nextCursor : Option ItemId
  hasNextPage : Bool
  totalCount : Nat
  deriving DecidableEq, Repr

/-- The validated search request.  Zod bounds: query within 2 and 100
characters, limit within 1 and 50, sortBy defaulting to relevance. -/
structure SearchInput where
  userId : UserId
  query : List Char
  sortBy : SortBy := SortBy.RELEVANCE
  cursor : Option ItemId := none
  limit : Nat := 20
  deriving Repr

/-- SearchItemsUseCase.performSearch: fetch limit plus one rows to detect a
next page, drop the probe row, map and score, re-sort in relevance mode, and
take the next cursor from the last raw row of the page. -/
def performSearch (repo : List Item) (input : SearchInput) (now : Millis) :
    SearchResponseCore :=
  let rows := searchWithRawQuery repo input.userId input.query input.cursor (input.limit + 1)
  let hasNextPage := input.limit < rows.length
  let resultRows := if hasNextPage then rows.dropLast else rows
  let searchResults := resultRows.map (mapToSearchResult input.query now)
  let sorted :=
    if input.sortBy = SortBy.RELEVANCE
    then List.insertionSort scoreOrder searchResults
    else searchResults
  { items := sorted
    nextCursor := if hasNextPage then resultRows.getLast?.map RawRow.id else none
    hasNextPage := hasNextPage
    totalCount := getTotalCount repo input.userId input.query }

/-- The full search response. -/
structure SearchResponse extends SearchResponseCore where
  searchTime : Millis
  deriving DecidableEq, Repr

/-- How SearchItemsUseCase.execute can fail in the embedding: Zod validation,
or the awaited cache set rejecting. -/
inductive SearchError
  | validation
  | cacheSetFailure
  deriving DecidableEq, Repr

/-- SearchItemsUseCase.execute: validate, consult the cache (a hit returns
the deserialized entry at once), otherwise search, then write the cache —
the awaited set has no catch, so a failed write aborts the call; the
slow-query branch only logs and never changes the returned value.
cachedResponse models the deserialized cache hit, cacheSetOk whether the
cache write resolves, elapsed the measured searchTime. -/
def searchExecute (repo : List Item) (input : SearchInput)
    (cachedResponse : Option SearchResponse) (cacheSetOk : Bool)
    (now elapsed : Millis) : Except SearchError SearchResponse :=
  if !(2 ≤ input.query.length && input.query.length ≤ 100 &&
       1 ≤ input.limit && input.limit ≤ 50) then
    Except.error SearchError.validation
  else
    match cachedResponse with
    | some r => Except.ok r
    | none =>
        let results := performSearch repo input now
        let response : SearchResponse := { toSearchResponseCore := results, searchTime := elapsed }
        if cacheSetOk then Except.ok response else Except.error SearchError.cacheSetFailure

/-! ### AddItemUseCase (Zod variant) with the mock repository transaction -/

/-- The validated add-item request of AddItemDTOSchema. -/
structure AddItemInput where
  userId : UserId
  title : List Char
  type : ItemType
  author : Option (List Char) := none
  url : Option (List Char) := none
  isbn : Option (List Char) := none
  doi : Option (List Char) := none
  metadata : List (String × String) := []
  deriving Repr

/-- The failures AddItemUseCase.execute can surface. -/
inductive AddItemError
  | validation
  | rateLimit
  | statsFailure
  deriving DecidableEq, Repr

/-- AddItemDTOSchema validation.  Title within 1 and 500 characters, author
within 200, the ISBN and DOI regexes applied verbatim (the schema does not
strip separators), and URL well-formedness delegated to the environment
predicate urlOk standing for the Zod url check. -/
def validateAddItem (urlOk : List Char → Bool) (input : AddItemInput) : Bool :=
  1 ≤ input.title.length && input.title.length ≤ 500 &&
  (match input.author with
   | some a => a.length ≤ 200
   | none => true) &&
  (match input.url with
   | some u => urlOk u
   | none => true) &&
  (match input.isbn with
   | some i => matchesIsbnShape i
   | none => true) &&
  (match input.doi with
   | some d => matchesDoiShape d
   | none => true)

/-- AddItemUseCase.RATE_LIMIT. -/
def RATE_LIMIT : Nat := 10

/-- AddItemUseCase.RATE_WINDOW_MS. -/
def RATE_WINDOW_MS : Int := 60 * 1000

/-- MockItemRepository.countByUserInTimeWindow: items of the user added at or
after the cutoff now minus the window. -/
def countByUserInTimeWindow (repo : List Item) (userId : UserId)
    (now windowMs : Millis) : Nat :=
  (repo.filter (fun it => it.userId == userId && now - windowMs ≤ it.addedAt)).length

/-- The per-type stats key the code builds from the enum value by
lowercasing and appending Count. -/
def typeCountKey : ItemType → String
  | ItemType.BOOK => "bookCount"
  | ItemType.PAPER => "paperCount"
  | ItemType.ARTICLE => "articleCount"

/-- The metadata-fetch job kinds AddItemUseCase schedules. -/
inductive JobKind
  | isbn
  | doi
  | url
  deriving DecidableEq, Repr

/-- Observable side effects of one AddItemUseCase.execute call. -/
structure AddItemEffects where
  scheduledJobs : List (ItemId × JobKind × List Char) := []
  auditLogs : List (UserId × ItemId × List Char × ItemType) := []
  events : List (ItemId × UserId × ItemType × Millis) := []
  deriving DecidableEq, Repr

/-- Mutable state AddItemUseCase.execute touches: the item map of
MockItemRepository in insertion order, and the stat increments the user
repository has recorded. -/
structure AddItemState where
  repoItems : List Item
  statsApplied : List (UserId × List (String × Nat))
  deriving Repr

/-- AddItemUseCase.scheduleMetadataFetch: at most one job, isbn before doi
before url. -/
def scheduleMetadataFetch (itemId : ItemId) (input : AddItemInput) :
    List (ItemId × JobKind × List Char) :=
  match input.isbn with
  | some i => [(itemId, JobKind.isbn, i)]
  | none =>
      match input.doi with
      | some d => [(itemId, JobKind.doi, d)]
      | none =>
          match input.url with
          | some u => [(itemId, JobKind.url, u)]
          | none => []

/-- AddItemUseCase.execute against MockItemRepository.  The mock transaction
is a plain passthrough call of its body, so a create that precedes a failing
incrementStats is kept.  newId stands for the generated item id, now for the
clock, statsOk for whether the user repository accepts the increment. -/
def addItemExecute (st : AddItemState) (input : AddItemInput)
    (urlOk : List Char → Bool) (newId : ItemId) (now : Millis) (statsOk : Bool) :
    (AddItemState × AddItemEffects) × Except AddItemError Item :=
  if !validateAddItem urlOk input then
    ((st, {}), Except.error AddItemError.validation)
  else
    let recentCount := countByUserInTimeWindow st.repoItems input.userId now RATE_WINDOW_MS
    if RATE_LIMIT ≤ recentCount then
      ((st, {}), Except.error AddItemError.rateLimit)
    else
      let newItem : Item :=
        { id := newId
          userId := input.userId
          title := input.title
          type := input.type
          author := input.author
          url := input.url
          status := ReadingStatus.WANT_TO_READ
          isPublic := false
          metadata := input.metadata
          addedAt := now
          updatedAt := now }
      let repoAfterCreate := st.repoItems ++ [newItem]
      if !statsOk then
        (({ repoItems := repoAfterCreate, statsApplied := st.statsApplied }, {}),
         Except.error AddItemError.statsFailure)
      else
        let stApplied := st.statsApplied ++
          [(input.userId, [("totalItems", 1), (typeCountKey input.type, 1)])]
        let effects : AddItemEffects :=
          { scheduledJobs := scheduleMetadataFetch newId input
            auditLogs := [(input.userId, newId, input.title, input.type)]
            events := [(newId, input.userId, input.type, now)] }
        (({ repoItems := repoAfterCreate, statsApplied := stApplied }, effects),
         Except.ok newItem)

/-! ### Rate limiting: the atomic Lua script, and the ingestion race -/

/-- The values the Lua script returns to RateLimiter.checkLimit. -/
structure LuaResult where
  allowed : Bool
  remaining : Int
  resetTime : Int
  totalHits : Nat
  deriving DecidableEq, Repr

/-- One atomic execution of RateLimiter.luaScript over the sorted-set member
scores of one key: drop scores in the window zero to now minus window, count
the rest, and record the request only under the limit. -/
def luaCheck (hits : List Millis) (now window : Int) (limit : Nat) :
    LuaResult × List Millis :=
  let live := hits.filter (fun s => !(0 ≤ s && s ≤ now - window))
  let current := live.length
  if current < limit then
    (⟨true, (limit : Int) - current - 1, now + window, current + 1⟩, now :: live)
  else
    (⟨false, 0, now + window, current⟩, live)

/-- A burst of calls against the limiter.  Redis runs each script execution
atomically, so any concurrent burst is some serialization; the count of
allowed calls is order-independent, so one canonical order suffices. -/
def luaRunCalls (now window : Int) (limit : Nat) : Nat → List Millis → Nat × List Millis
  | 0, hits => (0, hits)
  | n + 1, hits =>
      let first := luaCheck hits now window limit
      let rest := luaRunCalls now window limit n first.2
      ((if first.1.allowed then 1 else 0) + rest.1, rest.2)

/-- Phase of one in-flight AddItemUseCase.execute call in the race model:
before the count read, holding a read count, or finished. -/
inductive CallPhase
  | start
  | counted (c : Nat)
  | success
  | failed
  deriving DecidableEq, Repr

/-- Shared state for two concurrent ingestion calls of one user: the user's
current in-window item count and both call phases.  The count abstracts the
repository list that countByUserInTimeWindow measures and create extends. -/
structure RaceState where
  count : Nat
  first : CallPhase
  second : CallPhase
  deriving DecidableEq, Repr

/-- The four atomic transitions: each call first awaits
countByUserInTimeWindow (reading the shared count), then compares its local
copy against RATE_LIMIT and either throws RateLimitError or creates. -/
inductive RaceStep
  | readFst
  | readSnd
  | finishFst
  | finishSnd
  deriving DecidableEq, Repr

/-- One labelled transition of the ingestion race; none when the label does
not apply in the current phase. -/
def raceStep (s : RaceState) : RaceStep → Option RaceState
  | RaceStep.readFst =>
      match s.first with
      | CallPhase.start => some { s with first := CallPhase.counted s.count }
      | _ => none
  | RaceStep.readSnd =>
      match s.second with
      | CallPhase.start => some { s with second := CallPhase.counted s.count }
      | _ => none
  | RaceStep.finishFst =>
      match s.first with
      | CallPhase.counted c =>
          if RATE_LIMIT ≤ c then some { s with first := CallPhase.failed }
          else some { s with first := CallPhase.success, count := s.count + 1 }
      | _ => none
  | RaceStep.finishSnd =>
      match s.second with
      | CallPhase.counted c =>
          if RATE_LIMIT ≤ c then some { s with second := CallPhase.failed }
          else some { s with second := CallPhase.success, count := s.count + 1 }
      | _ => none

/-- Run one interleaving of the two ingestion calls. -/
def raceRun (s : RaceState) (steps : List RaceStep) : Option RaceState :=
  List.foldl (fun acc l => acc.bind (fun st => raceStep st l)) (some s) steps

/-! ### UpdateReadingStreakUseCase -/

/-- A row of the users table as the streak job touches it; streakDays is a
nullable column read through COALESCE. -/
structure StreakUser where
  id : UserId
  streakDays : Option Nat
  lastReadDate : Option Millis
  updatedAt : Millis
  deriving DecidableEq, Repr

/-- The database the batch job queries and updates. -/
structure StreakDB where
  users : List StreakUser
  items : List Item
  deriving Repr

/-- Milliseconds per UTC day; JavaScript Date has no leap seconds. -/
def dayMs : Int := 86400000

/-- getTodayUTC: the running clock with the UTC time-of-day zeroed. -/
def todayUTCStart (now : Millis) : Millis := dayMs * (Int.fdiv now dayMs)

/-- getYesterdayUTC: one UTC day before todayUTCStart. -/
def yesterdayUTCStart (now : Millis) : Millis := todayUTCStart now - dayMs

/-- Whether one item witnesses a qualifying read: readDate at or after the
yesterday boundary and strictly before the today boundary. -/
def readInWindow (yesterday today : Millis) (it : Item) : Bool :=
  match it.readDate with
  | some d => yesterday ≤ d && d < today
  | none => false

/-- getUsersWithReadsYesterday: the distinct given users that exist (the SQL
join) and have at least one item read in yesterday's UTC window, each paired
with COALESCE(streakDays, 0). -/
def usersWithReadsYesterday (db : StreakDB) (userIds : List UserId)
    (yesterday today : Millis) : List (UserId × Nat) :=
  userIds.filterMap (fun uid =>
    match db.users.find? (fun u => u.id == uid) with
    | none => none
    | some u =>
        if db.items.any (fun it => it.userId == uid && readInWindow yesterday today it)
        then some (uid, u.streakDays.getD 0)
        else none)

/-- batchUpdateStreaks: the single UPDATE whose CASE increments
COALESCE(streakDays, 0) for users with reads and zeroes the rest, while the
unconditional SET clauses write lastReadDate and updatedAt to today for every
user in the WHERE id IN list. -/
def batchUpdateStreaks (users : List StreakUser) (allUserIds : List UserId)
    (withReads : List (UserId × Nat)) (today : Millis) : List StreakUser :=
  users.map (fun u =>
    if allUserIds.contains u.id then
      { u with
        streakDays := some (if withReads.any (fun p => p.1 == u.id)
                            then u.streakDays.getD 0 + 1
                            else 0)
        lastReadDate := some today
        updatedAt := today }
    else u)

/-- Whether a user has at least one qualifying read for the clock now: some
item of theirs read within yesterday's UTC day.  This is the per-user reading
of the lookup query's WHERE clause. -/
def qualifyingRead (db : StreakDB) (uid : UserId) (now : Millis) : Bool :=
  db.items.any (fun it => it.userId == uid &&
    readInWindow (yesterdayUTCStart now) (todayUTCStart now) it)

/-- getMilestoneName. -/
def getMilestoneName (days : Nat) : String :=
  if days == 7 then "week_warrior"
  else if days == 30 then "monthly_master"
  else if days == 100 then "century_scholar"
  else if days == 365 then "yearly_champion"
  else "unknown"

/-- Observable side effects of one executeBatch call: raw queries issued,
milestone analytics events, and log entries written. -/
structure StreakEffects where
  rawQueries : Nat
  analyticsEvents : List (UserId × Nat × String)
  infoLogs : Nat
  deriving DecidableEq, Repr

/-- UpdateReadingStreakUseCase.executeBatch: an empty id list returns before
any query, any analytics call or any log line; otherwise one lookup query,
one batch update, milestone events for new streaks of 7, 30, 100 or 365, a
milestone info log each, and one summary info log. -/
def executeBatch (db : StreakDB) (userIds : List UserId) (now : Millis) :
    StreakDB × StreakEffects :=
  if userIds.length == 0 then (db, ⟨0, [], 0⟩)
  else
    let yesterday := yesterdayUTCStart now
    let today := todayUTCStart now
    let withReads := usersWithReadsYesterday db userIds yesterday today
    let updatedUsers := batchUpdateStreaks db.users userIds withReads today
    let milestones := withReads.filter (fun p => [7, 30, 100, 365].contains (p.2 + 1))
    ({ db with users := updatedUsers },
     { rawQueries := 2
       analyticsEvents := milestones.map (fun p => (p.1, p.2 + 1, getMilestoneName (p.2 + 1)))
       infoLogs := milestones.length + 1 })

/-! ### Concrete fixtures for counterexamples and witnesses -/

/-- An item of user u1 whose readDate falls early on UTC day one. -/
def readYesterdayItem : Item :=
  { id := 1, userId := "u1", type := ItemType.BOOK, title := ['b'],
    readDate := some (dayMs + 5), addedAt := 0, updatedAt := 0 }

/-- One user, streak five, with one qualifying read for a clock on day two. -/
def streakDbOne : StreakDB :=
  { users := [⟨"u1", some 5, some 0, 0⟩], items := [readYesterdayItem] }

/-- Two users: u1 with a qualifying read, u2 with none and a recorded
lastReadDate of zero. -/
def streakDbPair : StreakDB :=
  { users := [⟨"u1", some 5, some 0, 0⟩, ⟨"u2", some 3, some 0, 0⟩],
    items := [readYesterdayItem] }

/-- A clock during UTC day two, so that yesterday is day one. -/
def dayTwoNoon : Millis := 2 * dayMs + 1000

/-- A minimal valid add-item request. -/
def addBookInput : AddItemInput :=
  { userId := "u1", title := ['T', 'e', 's', 't'], type := ItemType.BOOK }

/-- A ten-digit string that matches the ISBN regex but fails the ISBN-10
checksum: the weighted sum is one, not divisible by eleven. -/
def isbnBadChecksum : List Char := ['0', '0', '0', '0', '0', '0', '0', '0', '0', '1']

/-- An add-item request carrying the checksum-invalid ISBN. -/
def addBookBadIsbn : AddItemInput :=
  { userId := "u1", title := ['B'], type := ItemType.BOOK, isbn := some isbnBadChecksum }

/-- A searchable item titled hello. -/
def helloItem : Item :=
  { id := 1, userId := "u1", type := ItemType.BOOK,
    title := ['h', 'e', 'l', 'l', 'o'], addedAt := 0, updatedAt := 0 }

/-- A validated search request with a two-character query. -/
def searchInputHe : SearchInput := { userId := "u1", query := ['h', 'e'] }

/-- An add-item request whose ISBN cannot match the regex at all. -/
def addBookInvalidIsbn : AddItemInput :=
  { userId := "u1", title := ['B'], type := ItemType.BOOK,
    isbn := some ['i', 'n', 'v', 'a', 'l', 'i', 'd', '-', 'i', 's', 'b', 'n'] }

/-- A hyphenated, checksum-correct ISBN-10. -/
def isbnHyphenValid : List Char :=
  ['0', '-', '3', '0', '6', '-', '4', '0', '6', '1', '5', '-', '2']

/-- Five items of one user with pairwise distinct addedAt values, the
cursor-pagination scenario of the spec. -/
def fiveItems : List Item :=
  [ { id := 1, userId := "u1", type := ItemType.BOOK, title := ['a'], addedAt := 10, updatedAt := 0 },
    { id := 2, userId := "u1", type := ItemType.BOOK, title := ['b'], addedAt := 20, updatedAt := 0 },
    { id := 3, userId := "u1", type := ItemType.BOOK, title := ['c'], addedAt := 30, updatedAt := 0 },
    { id := 4, userId := "u1", type := ItemType.BOOK, title := ['d'], addedAt := 40, updatedAt := 0 },
    { id := 5, userId := "u1", type := ItemType.BOOK, title := ['e'], addedAt := 50, updatedAt := 0 } ]

end Vow

namespace Vow

/-! ### Theorems -/

/-- C10: executeBatch on an empty user-id list is a complete no-op: the
database is untouched and no raw query, analytics event or log entry is
produced. -/
theorem executeBatch_empty_is_noop (db : StreakDB) (now : Millis) :
    executeBatch db [] now = (db, ⟨0, [], 0⟩) := rfl

/-- C1: the streak batch is not idempotent.  With user u1 at streak five and
one unchanged qualifying read on yesterday's UTC day, one run yields streak
six but a second run over the same data yields seven: the relative
plus-one update double-increments on a rerun. -/
theorem streak_batch_double_increments_on_rerun :
    ((executeBatch streakDbOne ["u1"] dayTwoNoon).1.users.map StreakUser.streakDays
      = [some 6]) ∧
    ((executeBatch (executeBatch streakDbOne ["u1"] dayTwoNoon).1 ["u1"] dayTwoNoon).1.users.map
        StreakUser.streakDays = [some 7]) ∧
    (some 7 ≠ some 6) := by decide

/-- C2: the mock repository transaction is a plain passthrough, so when the
stat increment fails after the item create, the created item stays visible
in the repository while the caller receives the error: no rollback happens. -/
theorem transaction_no_rollback_keeps_item :
    (addItemExecute ⟨[], []⟩ addBookInput (fun _ => true) 1 0 false).2
      = Except.error AddItemError.statsFailure ∧
    ((addItemExecute ⟨[], []⟩ addBookInput (fun _ => true) 1 0 false).1.1.repoItems.length = 1) :=
  ⟨rfl, rfl⟩

/-- C3 counterexample: with nine recent items and a limit of ten, the
interleaving in which both concurrent calls read the count before either
creates lets both succeed, leaving eleven items — the count-check-then-write
of AddItemUseCase is not atomic. -/
theorem race_interleaving_exceeds_limit :
    raceRun ⟨9, CallPhase.start, CallPhase.start⟩
        [RaceStep.readFst, RaceStep.readSnd, RaceStep.finishFst, RaceStep.finishSnd]
      = some ⟨11, CallPhase.success, CallPhase.success⟩ ∧
    RATE_LIMIT < 11 := by decide

/-- C5 counterexample: the text abc matches the query ab as a proper
case-insensitive prefix without being equal, yet calculateSimilarity scores
it 0.8, not the claimed 0.6 — the containment branch fires first on every
start-of-string match. -/
theorem similarity_proper_start_scores_08 :
    startsWithQ (toLowerStr ['a', 'b', 'c']) (toLowerStr ['a', 'b']) = true ∧
    toLowerStr ['a', 'b', 'c'] ≠ toLowerStr ['a', 'b'] ∧
    calculateSimilarity ['a', 'b', 'c'] ['a', 'b'] = 8/10 ∧
    (8/10 : ℚ) ≠ 6/10 := by
  refine ⟨by decide, by decide, rfl, by norm_num⟩

/-- C6 counterexample: the ten-character string of nine zeros and a one
matches the ISBN regex though its mod-11 checksum fails (and it is no
ISBN-13 either), and the ingestion pipeline accepts it and creates the item
instead of rejecting it with a validation error. -/
theorem isbn_checksum_invalid_accepted :
    isValidISBN isbnBadChecksum = true ∧
    isChecksumISBN10 isbnBadChecksum = false ∧
    isChecksumISBN13 isbnBadChecksum = false ∧
    (addItemExecute ⟨[], []⟩ addBookBadIsbn (fun _ => true) 1 0 true).2
      = Except.ok { id := 1, userId := "u1", type := ItemType.BOOK, title := ['B'],
                    addedAt := 0, updatedAt := 0 } ∧
    ((addItemExecute ⟨[], []⟩ addBookBadIsbn (fun _ => true) 1 0 true).1.1.repoItems.length = 1) :=
  ⟨rfl, rfl, rfl, rfl, rfl⟩

/-- C7 counterexample: searchWithRawQuery with a cursor id that exists in no
row returns exactly the page it would return without any cursor — a
silently ignored cursor, not a thrown error — and that page is non-empty. -/
theorem unknown_cursor_silently_ignored :
    searchWithRawQuery [helloItem] "u1" ['h', 'e'] (some 99) 5
      = searchWithRawQuery [helloItem] "u1" ['h', 'e'] none 5 ∧
    (searchWithRawQuery [helloItem] "u1" ['h', 'e'] none 5).length = 1 := ⟨rfl, rfl⟩

/-- C8 counterexample: user u2 has no qualifying read, and the batch zeroes
its streak as claimed, but the single UPDATE also overwrites its lastReadDate
from zero to today's boundary — the field does not stay unchanged. -/
theorem streak_reset_overwrites_lastReadDate :
    ((executeBatch streakDbPair ["u1", "u2"] dayTwoNoon).1.users.map StreakUser.streakDays
      = [some 6, some 0]) ∧
    ((executeBatch streakDbPair ["u1", "u2"] dayTwoNoon).1.users.map StreakUser.lastReadDate
      = [some (2 * dayMs), some (2 * dayMs)]) ∧
    ((streakDbPair.users.map StreakUser.lastReadDate) = [some 0, some 0]) ∧
    (some (2 * dayMs) ≠ (some 0 : Option Millis)) := by decide

/-- C9 counterexample: with an empty cache and a cache set call that rejects,
SearchItemsUseCase.execute propagates the cache failure instead of returning
the computed search response. -/
theorem cache_set_failure_fails_search :
    searchExecute [helloItem] searchInputHe none false 0 0
      = Except.error SearchError.cacheSetFailure := rfl


/-! ### Helper lemmas -/

theorem startsWithQ_imp_containsSub (t q : List Char) :
    startsWithQ t q = true → containsSub t q = true := by
  unfold startsWithQ containsSub
  intro h
  exact decide_eq_true (of_decide_eq_true h).isInfix

theorem digit_getLast_ok (t : List Char) (hne : t ≠ []) (hall : t.all isDigitCh = true) :
    (match t.getLast? with
     | some c => isDigitCh c || c = 'X'
     | none => false) = true := by
  rw [List.getLast?_eq_getLast t hne]
  have hd := List.all_eq_true.mp hall (t.getLast hne) (List.getLast_mem hne)
  simp [hd]

theorem checksum_shape_10 (s : List Char) (h : isChecksumISBN10 s = true) :
    isbnTail10 s = true := by
  unfold isChecksumISBN10 at h
  unfold isbnTail10
  simp only [Bool.and_eq_true] at h ⊢
  exact h.1

theorem checksum_shape_13 (s : List Char) (h : isChecksumISBN13 s = true) :
    matchesIsbnShape s = true := by
  unfold isChecksumISBN13 at h
  simp only [Bool.and_eq_true, Bool.or_eq_true, beq_iff_eq] at h
  obtain ⟨⟨⟨hlen, hdig⟩, hpre⟩, -⟩ := h
  have hsplit := List.take_append_drop 3 s
  have hd10 : (s.drop 3).length = 10 := by
    rw [List.length_drop, hlen]
  have hdigdrop : (s.drop 3).all isDigitCh = true := by
    rw [List.all_eq_true] at hdig ⊢
    exact fun x hx => hdig x (List.mem_of_mem_drop hx)
  have htail : isbnTail10 (s.drop 3) = true := by
    unfold isbnTail10
    simp only [Bool.and_eq_true, beq_iff_eq]
    refine ⟨⟨hd10, ?_⟩, ?_⟩
    · rw [List.all_eq_true] at hdigdrop ⊢
      exact fun x hx => hdigdrop x (List.mem_of_mem_take hx)
    · exact digit_getLast_ok _ (List.ne_nil_of_length_pos (by omega)) hdigdrop
  rcases hpre with hp | hp
  · rw [hp] at hsplit
    rw [← hsplit]
    unfold matchesIsbnShape
    simp only [List.cons_append, List.nil_append]
    rw [htail]
    simp
  · rw [hp] at hsplit
    rw [← hsplit]
    unfold matchesIsbnShape
    simp only [List.cons_append, List.nil_append]
    rw [htail]
    simp

theorem findIdxBy_eq_none (p : α → Bool) :
    ∀ l : List α, (∀ x ∈ l, p x = false) → findIdxBy p l = none := by
  intro l h
  induction l with
  | nil => rfl
  | cons x rest ih =>
      unfold findIdxBy
      rw [h x (List.mem_cons_self x rest)]
      simp only [Bool.false_eq_true, if_false]
      rw [ih (fun y hy => h y (List.mem_cons_of_mem x hy))]
      rfl

theorem sortedUserItems_subset (repo : List Item) (uid : UserId) :
    ∀ it ∈ sortedUserItems repo uid, it ∈ repo := by
  intro it hit
  unfold sortedUserItems at hit
  have hperm := List.perm_insertionSort pageOrder (repo.filter (fun x => x.userId == uid))
  exact List.mem_of_mem_filter (hperm.mem_iff.mp hit)

theorem contains_eq_true_of_mem (l : List UserId) (a : UserId) (h : a ∈ l) :
    l.contains a = true := by
  have hmem := List.elem_iff.mpr h
  simpa [List.contains] using hmem

theorem contains_eq_false_of_not_mem (l : List UserId) (a : UserId) (h : a ∉ l) :
    l.contains a = false := by
  cases hc : l.contains a
  · rfl
  · exact absurd (List.elem_iff.mp (by simpa [List.contains] using hc)) h

theorem find?_eq_of_nodup (users : List StreakUser) (u : StreakUser)
    (hnd : (users.map StreakUser.id).Nodup) (hmem : u ∈ users) :
    users.find? (fun v => v.id == u.id) = some u := by
  induction users with
  | nil => cases hmem
  | cons v rest ih =>
      rw [List.map_cons, List.nodup_cons] at hnd
      rcases List.mem_cons.mp hmem with rfl | hm
      · simp [List.find?]
      · have hne : (v.id == u.id) = false := by
          rw [beq_eq_false_iff_ne]
          intro he
          exact hnd.1 (he ▸ List.mem_map_of_mem StreakUser.id hm)
        rw [List.find?_cons, hne]
        exact ih hnd.2 hm

theorem withReads_any_eq (db : StreakDB) (userIds : List UserId) (now : Millis)
    (u : StreakUser) (hfind : db.users.find? (fun v => v.id == u.id) = some u)
    (hin : u.id ∈ userIds) :
    (usersWithReadsYesterday db userIds (yesterdayUTCStart now) (todayUTCStart now)).any
        (fun p => p.1 == u.id)
      = qualifyingRead db u.id now := by
  unfold qualifyingRead
  cases hq : db.items.any (fun it => it.userId == u.id &&
      readInWindow (yesterdayUTCStart now) (todayUTCStart now) it)
  · rw [List.any_eq_false]
    intro p hp
    rcases List.mem_filterMap.mp hp with ⟨x, hx, hfx⟩
    by_cases hxu : x = u.id
    · subst hxu
      rw [hfind] at hfx
      dsimp only at hfx
      rw [if_neg (by simp [hq])] at hfx
      simp at hfx
    · rcases hfind2 : db.users.find? (fun v => v.id == x) with _ | w
      · rw [hfind2] at hfx
        simp at hfx
      · rw [hfind2] at hfx
        have hfx2 : (if (db.items.any fun it => it.userId == x &&
              readInWindow (yesterdayUTCStart now) (todayUTCStart now) it) = true
            then some (x, w.streakDays.getD 0)
            else (none : Option (UserId × Nat))) = some p := hfx
        by_cases hany : (db.items.any fun it => it.userId == x &&
            readInWindow (yesterdayUTCStart now) (todayUTCStart now) it) = true
        · rw [if_pos hany] at hfx2
          cases hfx2
          simp [hxu]
        · rw [if_neg hany] at hfx2
          simp at hfx2
  · rw [List.any_eq_true]
    refine ⟨(u.id, u.streakDays.getD 0), ?_, by simp⟩
    apply List.mem_filterMap.mpr
    refine ⟨u.id, hin, ?_⟩
    rw [hfind]
    dsimp only
    rw [if_pos hq]

theorem luaRunCalls_replicate (now window : Int) (limit : Nat) (hw : 0 < window) :
    ∀ n k, (luaRunCalls now window limit n (List.replicate k now)).1
      = min n (limit - k) := by
  intro n
  induction n with
  | zero => intro k; simp [luaRunCalls]
  | succ m ih =>
      intro k
      have hfilter : (List.replicate k now).filter
          (fun s => !(0 ≤ s && s ≤ now - window)) = List.replicate k now := by
        apply List.filter_eq_self.mpr
        intro x hx
        rw [List.eq_of_mem_replicate hx]
        have hno : ¬(now ≤ now - window) := by omega
        simp [hno]
      unfold luaRunCalls luaCheck
      rw [hfilter]
      simp only [List.length_replicate]
      by_cases hk : k < limit
      · rw [if_pos hk]
        simp only [if_true, Bool.false_eq_true, if_false, ite_true, ite_false]
        rw [← List.replicate_succ, ih (k + 1)]
        omega
      · rw [if_neg hk]
        simp only [if_true, Bool.false_eq_true, if_false, ite_true, ite_false]
        rw [ih k]
        omega

theorem findIdxBy_id_get (L : List Item) (hnd : (L.map Item.id).Nodup) :
    ∀ (k : Nat) (hk : k < L.length),
      findIdxBy (fun it => it.id == (L.get ⟨k, hk⟩).id) L = some k := by
  induction L with
  | nil => intro k hk; exact absurd hk (Nat.not_lt_zero k)
  | cons x rest ih =>
      intro k hk
      rw [List.map_cons, List.nodup_cons] at hnd
      cases k with
      | zero =>
          unfold findIdxBy
          simp
      | succ j =>
          have hj : j < rest.length := by
            simpa using hk
          have hget : (x :: rest).get ⟨j + 1, hk⟩ = rest.get ⟨j, hj⟩ := rfl
          unfold findIdxBy
          rw [hget]
          have hne : (x.id == (rest.get ⟨j, hj⟩).id) = false := by
            rw [beq_eq_false_iff_ne]
            intro he
            exact hnd.1 (he ▸ List.mem_map_of_mem Item.id (List.get_mem rest j hj))
          rw [hne]
          simp only [Bool.false_eq_true, if_false]
          rw [ih hnd.2 j hj]
          rfl

theorem page_full_getLast (L : List Item) (start limit : Nat) (hlim : 1 ≤ limit)
    (hend : start + limit ≤ L.length) :
    ∃ hlt : start + limit - 1 < L.length,
      ((L.drop start).take limit).getLast? = some (L.get ⟨start + limit - 1, hlt⟩) := by
  have hlt : start + limit - 1 < L.length := by omega
  refine ⟨hlt, ?_⟩
  rw [List.getLast?_eq_getElem?]
  have hlen : ((L.drop start).take limit).length = limit := by
    rw [List.length_take, List.length_drop]
    omega
  rw [hlen, List.getElem?_take, if_pos (by omega : limit - 1 < limit),
      List.getElem?_drop]
  have hidx : start + (limit - 1) = start + limit - 1 := by omega
  rw [hidx, List.getElem?_eq_getElem hlt]
  simp [List.get_eq_getElem]

theorem collectPages_drop (repo : List Item) (uid : UserId) (limit : Nat)
    (h1 : 1 ≤ limit) (h2 : limit ≤ 100)
    (hnd : ((sortedUserItems repo uid).map Item.id).Nodup) :
    ∀ fuel start (cur : Option ItemId),
      (sortedUserItems repo uid).length - start < fuel →
      start ≤ (sortedUserItems repo uid).length →
      (cur = none ∧ start = 0 ∨
        ∃ hlt : start - 1 < (sortedUserItems repo uid).length, 0 < start ∧
          cur = some ((sortedUserItems repo uid).get ⟨start - 1, hlt⟩).id) →
      ∃ pages, collectPages repo uid limit fuel cur = Except.ok pages ∧
        pages.flatten = (sortedUserItems repo uid).drop start := by
  intro fuel
  induction fuel with
  | zero =>
      intro start cur hfuel hstart hcur
      omega
  | succ f ih =>
      intro start cur hfuel hstart hcur
      have hguard : (limit == 0 || decide (100 < limit)) = false := by
        simp only [Bool.or_eq_false_iff, beq_eq_false_iff_ne, decide_eq_false_iff_not]
        omega
      have hfind : findByUserId repo uid { limit := limit, cursor := cur }
          = Except.ok (pageAt (sortedUserItems repo uid) start limit) := by
        rcases hcur with ⟨rfl, rfl⟩ | ⟨hlt, hpos, rfl⟩
        · unfold findByUserId
          rw [hguard]
          simp only [Bool.false_eq_true, if_false]
        · unfold findByUserId
          rw [hguard]
          simp only [Bool.false_eq_true, if_false]
          rw [findIdxBy_id_get (sortedUserItems repo uid) hnd (start - 1) hlt]
          have hs : start - 1 + 1 = start := by omega
          show Except.ok (pageAt (sortedUserItems repo uid) (start - 1 + 1) limit)
            = Except.ok (pageAt (sortedUserItems repo uid) start limit)
          rw [hs]
      by_cases hmore : ((((sortedUserItems repo uid).drop start).take limit).length == limit
          && decide (start + limit < (sortedUserItems repo uid).length)) = true
      · have hpair := hmore
        rw [Bool.and_eq_true] at hpair
        have hlen : (((sortedUserItems repo uid).drop start).take limit).length = limit := by
          simpa using hpair.1
        have hml : start + limit < (sortedUserItems repo uid).length :=
          of_decide_eq_true hpair.2
        obtain ⟨hlt2, hlast⟩ :=
          page_full_getLast (sortedUserItems repo uid) start limit h1 (le_of_lt hml)
        have hnc : (pageAt (sortedUserItems repo uid) start limit).nextCursor
            = some ((sortedUserItems repo uid).get ⟨start + limit - 1, hlt2⟩).id := by
          unfold pageAt
          dsimp only
          rw [if_pos hmore, hlast]
          rfl
        have hhn : (pageAt (sortedUserItems repo uid) start limit).hasNextPage = true := by
          unfold pageAt
          dsimp only
          rw [if_pos hmore, hlast]
          rfl
        obtain ⟨pages, hpages, hflat⟩ := ih (start + limit)
            (some ((sortedUserItems repo uid).get ⟨start + limit - 1, hlt2⟩).id)
            (by omega) (le_of_lt hml)
            (Or.inr ⟨by omega, by omega, rfl⟩)
        refine ⟨(pageAt (sortedUserItems repo uid) start limit).items :: pages, ?_, ?_⟩
        · unfold collectPages
          rw [hfind]
          dsimp only
          rw [hhn]
          simp only [if_true]
          rw [hnc, hpages]
        · rw [List.flatten_cons, hflat]
          show ((sortedUserItems repo uid).drop start).take limit ++ _ = _
          rw [← List.drop_drop, List.take_append_drop]
      · have hhn : (pageAt (sortedUserItems repo uid) start limit).hasNextPage = false := by
          unfold pageAt
          dsimp only
          rw [if_neg hmore]
          rfl
        have hall : ((sortedUserItems repo uid).drop start).take limit
            = (sortedUserItems repo uid).drop start := by
          apply List.take_of_length_le
          rw [List.length_drop]
          by_cases hb : start + limit < (sortedUserItems repo uid).length
          · have hlenne :
                (((sortedUserItems repo uid).drop start).take limit).length ≠ limit := by
              intro he
              apply hmore
              rw [Bool.and_eq_true]
              exact ⟨by simp [he], decide_eq_true hb⟩
            rw [List.length_take, List.length_drop] at hlenne
            omega
          · omega
        refine ⟨[(pageAt (sortedUserItems repo uid) start limit).items], ?_, ?_⟩
        · unfold collectPages
          rw [hfind]
          dsimp only
          rw [hhn]
          simp only [Bool.false_eq_true, if_false]
        · show (((sortedUserItems repo uid).drop start).take limit) ++ [].flatten = _
          rw [hall]
          simp

theorem flatten_nodup_pairwise (pages : List (List Item))
    (h : (pages.flatten.map Item.id).Nodup) :
    List.Pairwise (fun p q => ∀ x ∈ p, x ∉ q) pages := by
  induction pages with
  | nil => exact List.Pairwise.nil
  | cons p ps ih =>
      rw [List.flatten_cons, List.map_append, List.nodup_append] at h
      refine List.Pairwise.cons ?_ (ih h.2.1)
      intro q hq x hxp hxq
      exact h.2.2 (List.mem_map_of_mem Item.id hxp)
        (List.mem_map_of_mem Item.id (List.mem_flatten.mpr ⟨q, hq, hxq⟩))

theorem pageAt_cursor_pos (L : List Item) (start limit : Nat)
    (hcond : (((L.drop start).take limit).length == limit
        && decide (start + limit < L.length)) = true) :
    (pageAt L start limit).nextCursor = ((L.drop start).take limit).getLast?.map Item.id ∧
    (pageAt L start limit).hasNextPage
      = (((L.drop start).take limit).getLast?.map Item.id).isSome := by
  unfold pageAt
  dsimp only
  rw [if_pos hcond]
  exact ⟨rfl, rfl⟩

theorem pageAt_cursor_neg (L : List Item) (start limit : Nat)
    (hcond : ¬(((L.drop start).take limit).length == limit
        && decide (start + limit < L.length)) = true) :
    (pageAt L start limit).nextCursor = none ∧
    (pageAt L start limit).hasNextPage = false := by
  unfold pageAt
  dsimp only
  rw [if_neg hcond]
  exact ⟨rfl, rfl⟩

/-- C3 amended: exactly N of N plus one calls succeed when the
check-and-increment is serialized — as in the atomic Lua script of
RateLimiter.checkLimit, and as when the two ingestion calls run one after the
other — while the interleaved ingestion race (its counterexample) can exceed
the limit. -/
theorem rate_limit_exact_when_serialized (N : Nat) (now window : Int)
    (hw : 0 < window) :
    (luaRunCalls now window N (N + 1) []).1 = N ∧
    raceRun ⟨9, CallPhase.start, CallPhase.start⟩
        [RaceStep.readFst, RaceStep.finishFst, RaceStep.readSnd, RaceStep.finishSnd]
      = some ⟨10, CallPhase.success, CallPhase.failed⟩ := by
  constructor
  · have h := luaRunCalls_replicate now window N hw (N + 1) 0
    rw [List.replicate_zero] at h
    rw [h]
    omega
  · decide

/-- Witness for C3 at N equal three with a one-minute window. -/
theorem rate_limit_exact_when_serialized_witness :
    (luaRunCalls 0 60000 3 (3 + 1) []).1 = 3 ∧
    raceRun ⟨9, CallPhase.start, CallPhase.start⟩
        [RaceStep.readFst, RaceStep.finishFst, RaceStep.readSnd, RaceStep.finishSnd]
      = some ⟨10, CallPhase.success, CallPhase.failed⟩ :=
  rate_limit_exact_when_serialized 3 0 60000 (by decide)

/-- C4: over a repository whose item ids are distinct, driving findByUserId
with each returned nextCursor partitions the user's sorted collection: the
concatenated pages reproduce it exactly once each with no page overlap, the
order is addedAt descending with ascending ids on ties (a permutation of the
user's items), and nextCursor is the last returned item's id exactly when
items remain, else absent. -/
theorem pagination_partitions_sorted_items (repo : List Item) (uid : UserId)
    (limit : Nat) (h1 : 1 ≤ limit) (h2 : limit ≤ 100)
    (hnd : ((sortedUserItems repo uid).map Item.id).Nodup) :
    (∃ pages,
      collectPages repo uid limit ((sortedUserItems repo uid).length + 1) none
        = Except.ok pages ∧
      pages.flatten = sortedUserItems repo uid ∧
      List.Pairwise (fun p q => ∀ x ∈ p, x ∉ q) pages) ∧
    List.Sorted pageOrder (sortedUserItems repo uid) ∧
    (sortedUserItems repo uid).Perm (repo.filter (fun it => it.userId == uid)) ∧
    (∀ start, start ≤ (sortedUserItems repo uid).length →
      (pageAt (sortedUserItems repo uid) start limit).nextCursor
        = if start + (pageAt (sortedUserItems repo uid) start limit).items.length
              < (sortedUserItems repo uid).length
          then (pageAt (sortedUserItems repo uid) start limit).items.getLast?.map Item.id
          else none) := by
  refine ⟨?_, ?_, ?_, ?_⟩
  · obtain ⟨pages, hp, hf⟩ := collectPages_drop repo uid limit h1 h2 hnd
      ((sortedUserItems repo uid).length + 1) 0 none (by omega) (by omega)
      (Or.inl ⟨rfl, rfl⟩)
    rw [List.drop_zero] at hf
    exact ⟨pages, hp, hf, flatten_nodup_pairwise pages (by rw [hf]; exact hnd)⟩
  · exact List.sorted_insertionSort pageOrder _
  · exact List.perm_insertionSort pageOrder _
  · intro start hstart
    have hitems : (pageAt (sortedUserItems repo uid) start limit).items
        = ((sortedUserItems repo uid).drop start).take limit := rfl
    by_cases hA : limit ≤ (sortedUserItems repo uid).length - start
    · have hpl : (pageAt (sortedUserItems repo uid) start limit).items.length = limit := by
        rw [hitems, List.length_take, List.length_drop]
        omega
      by_cases hb : start + limit < (sortedUserItems repo uid).length
      · have hcond : ((((sortedUserItems repo uid).drop start).take limit).length == limit
            && decide (start + limit < (sortedUserItems repo uid).length)) = true := by
          rw [Bool.and_eq_true]
          exact ⟨beq_iff_eq.mpr hpl, decide_eq_true hb⟩
        rw [(pageAt_cursor_pos _ _ _ hcond).1, hpl, if_pos (by omega)]
        rfl
      · have hcond : ¬((((sortedUserItems repo uid).drop start).take limit).length == limit
            && decide (start + limit < (sortedUserItems repo uid).length)) = true := by
          rw [Bool.and_eq_true]
          rintro ⟨-, hdec⟩
          exact hb (of_decide_eq_true hdec)
        rw [(pageAt_cursor_neg _ _ _ hcond).1, hpl, if_neg (by omega)]
    · have hpl : (pageAt (sortedUserItems repo uid) start limit).items.length
          = (sortedUserItems repo uid).length - start := by
        rw [hitems, List.length_take, List.length_drop]
        omega
      have hcond : ¬((((sortedUserItems repo uid).drop start).take limit).length == limit
          && decide (start + limit < (sortedUserItems repo uid).length)) = true := by
        rw [Bool.and_eq_true]
        rintro ⟨hlen, -⟩
        have hmin := beq_iff_eq.mp hlen
        rw [List.length_take, List.length_drop] at hmin
        omega
      rw [(pageAt_cursor_neg _ _ _ hcond).1, hpl, if_neg (by omega)]

/-- Witness for C4 at the five-item fixture with page size two. -/
theorem pagination_partitions_sorted_items_witness :
    (∃ pages,
      collectPages fiveItems "u1" 2 ((sortedUserItems fiveItems "u1").length + 1) none
        = Except.ok pages ∧
      pages.flatten = sortedUserItems fiveItems "u1" ∧
      List.Pairwise (fun p q => ∀ x ∈ p, x ∉ q) pages) ∧
    List.Sorted pageOrder (sortedUserItems fiveItems "u1") ∧
    (sortedUserItems fiveItems "u1").Perm
      (fiveItems.filter (fun it => it.userId == "u1")) ∧
    (∀ start, start ≤ (sortedUserItems fiveItems "u1").length →
      (pageAt (sortedUserItems fiveItems "u1") start 2).nextCursor
        = if start + (pageAt (sortedUserItems fiveItems "u1") start 2).items.length
              < (sortedUserItems fiveItems "u1").length
          then (pageAt (sortedUserItems fiveItems "u1") start 2).items.getLast?.map Item.id
          else none) :=
  pagination_partitions_sorted_items fiveItems "u1" 2 (by decide) (by decide) (by decide)

/-- C5 amended: calculateSimilarity scores 1.0 on case-insensitive equality,
0.8 on substring containment — which subsumes every start-of-string match, so
no input ever receives 0.6 — and otherwise the trigram overlap quotient. -/
theorem calculateSimilarity_eq_similaritySpec (text query : List Char) :
    calculateSimilarity text query = similaritySpec text query := by
  unfold calculateSimilarity similaritySpec
  by_cases h0 : (text.isEmpty || query.isEmpty) = true
  · simp [h0]
  · rw [Bool.not_eq_true] at h0
    simp only [h0, Bool.false_eq_true, if_false]
    by_cases h1 : toLowerStr text = toLowerStr query
    · simp [h1]
    · simp only [h1, if_false]
      by_cases h2 : containsSub (toLowerStr text) (toLowerStr query) = true
      · simp [h2]
      · rw [Bool.not_eq_true] at h2
        have h3 : startsWithQ (toLowerStr text) (toLowerStr query) = false := by
          cases h4 : startsWithQ (toLowerStr text) (toLowerStr query)
          · rfl
          · rw [startsWithQ_imp_containsSub _ _ h4] at h2
            exact absurd h2 (by simp)
        simp [h2, h3]

/-- C6 amended: after stripping hyphens and spaces, every checksum-correct
ISBN-10 or ISBN-13 matches the regex and isValidISBN accepts it; a request
whose ISBN fails the regex is rejected with the validation error before any
write, leaving the state untouched and no item created.  Only the regex is
enforced — the checksum is never computed. -/
theorem isbn_regex_acceptance_and_rejection (s t : List Char) (input : AddItemInput)
    (st : AddItemState) (urlOk : List Char → Bool) (newId : ItemId) (now : Millis)
    (statsOk : Bool)
    (hch : isChecksumISBN10 (cleanIsbn s) = true ∨ isChecksumISBN13 (cleanIsbn s) = true)
    (hisbn : input.isbn = some t) (hshape : matchesIsbnShape t = false) :
    isValidISBN s = true ∧
    addItemExecute st input urlOk newId now statsOk
      = ((st, {}), Except.error AddItemError.validation) := by
  constructor
  · unfold isValidISBN
    rcases hch with h | h
    · unfold matchesIsbnShape
      rw [checksum_shape_10 _ h]
      simp
    · exact checksum_shape_13 _ h
  · have hv : validateAddItem urlOk input = false := by
      unfold validateAddItem
      rw [hisbn]
      simp [hshape]
    unfold addItemExecute
    rw [hv]
    rfl

/-- Witness for C6 at a hyphenated checksum-correct ISBN-10 and the
invalid-isbn request of the spec scenario. -/
theorem isbn_regex_acceptance_and_rejection_witness :
    isValidISBN isbnHyphenValid = true ∧
    addItemExecute ⟨[], []⟩ addBookInvalidIsbn (fun _ => true) 1 0 true
      = ((⟨[], []⟩, {}), Except.error AddItemError.validation) :=
  isbn_regex_acceptance_and_rejection isbnHyphenValid
    ['i', 'n', 'v', 'a', 'l', 'i', 'd', '-', 'i', 's', 'b', 'n'] addBookInvalidIsbn
    ⟨[], []⟩ (fun _ => true) 1 0 true (Or.inl (by decide)) rfl (by decide)

/-- C7 amended: a cursor referencing no existing item id makes findByUserId
throw the invalid-cursor error, but searchWithRawQuery silently ignores such
a cursor and returns the page computed as if no cursor had been given. -/
theorem invalid_cursor_split_behavior (repo : List Item) (uid : UserId) (limit : Nat)
    (c : ItemId) (q : List Char) (slimit : Nat)
    (h1 : 1 ≤ limit) (h2 : limit ≤ 100)
    (hc : c ∉ repo.map Item.id) :
    findByUserId repo uid { limit := limit, cursor := some c }
      = Except.error (RepoError.invalidCursor c) ∧
    searchWithRawQuery repo uid q (some c) slimit
      = searchWithRawQuery repo uid q none slimit := by
  have hid : ∀ it ∈ repo, (it.id == c) = false := by
    intro it hit
    rw [beq_eq_false_iff_ne]
    intro he
    exact hc (he ▸ List.mem_map_of_mem Item.id hit)
  constructor
  · have hguard : (limit == 0 || decide (100 < limit)) = false := by
      simp only [Bool.or_eq_false_iff, beq_eq_false_iff_ne, decide_eq_false_iff_not]
      omega
    have hnone : findIdxBy (fun it => it.id == c) (sortedUserItems repo uid) = none :=
      findIdxBy_eq_none _ _ (fun it hit => hid it (sortedUserItems_subset repo uid it hit))
    unfold findByUserId
    rw [hguard]
    simp only [Bool.false_eq_true, if_false]
    rw [hnone]
  · unfold searchWithRawQuery
    have hnone : findIdxBy (fun (row : RawRow) => row.id == c)
        (((repo.filter (fun it => it.userId == uid)).filter (fun it =>
            containsSub (toLowerStr it.title) (toLowerStr q) ||
            optContains it.author (toLowerStr q) ||
            optContains it.notes (toLowerStr q))).map (rawRowOfItem (toLowerStr q)))
        = none := by
      apply findIdxBy_eq_none
      intro row hrow
      rcases List.mem_map.mp hrow with ⟨it, hit, rfl⟩
      exact hid it (List.mem_of_mem_filter (List.mem_of_mem_filter hit))
    dsimp only
    rw [hnone]

/-- Witness for C7 at a one-item repository and the unknown cursor 99. -/
theorem invalid_cursor_split_behavior_witness :
    findByUserId [helloItem] "u1" { limit := 2, cursor := some 99 }
      = Except.error (RepoError.invalidCursor 99) ∧
    searchWithRawQuery [helloItem] "u1" ['h', 'e'] (some 99) 5
      = searchWithRawQuery [helloItem] "u1" ['h', 'e'] none 5 :=
  invalid_cursor_split_behavior [helloItem] "u1" 2 99 ['h', 'e'] 5
    (by decide) (by decide) (by decide)

/-- C8 amended: in the batch update every targeted user with a qualifying
read gets streakDays incremented, every other targeted user gets streakDays
zero, and the single UPDATE writes lastReadDate (and updatedAt) to today for
every targeted user — readers and non-readers alike; users outside the batch
stay untouched. -/
theorem streak_batch_written_fields (db : StreakDB) (userIds : List UserId)
    (now : Millis) (u : StreakUser) (hmem : u ∈ db.users) (hin : u.id ∈ userIds)
    (hnd : (db.users.map StreakUser.id).Nodup) :
    ({ id := u.id,
       streakDays := some (if qualifyingRead db u.id now
                           then u.streakDays.getD 0 + 1 else 0),
       lastReadDate := some (todayUTCStart now),
       updatedAt := todayUTCStart now } : StreakUser)
      ∈ (executeBatch db userIds now).1.users ∧
    (∀ v ∈ db.users, v.id ∉ userIds → v ∈ (executeBatch db userIds now).1.users) := by
  have hne : userIds ≠ [] := List.ne_nil_of_mem hin
  have hlen : (userIds.length == 0) = false := by
    cases userIds with
    | nil => exact absurd rfl hne
    | cons a l => rfl
  unfold executeBatch
  rw [hlen]
  simp only [Bool.false_eq_true, if_false]
  constructor
  · unfold batchUpdateStreaks
    apply List.mem_map.mpr
    refine ⟨u, hmem, ?_⟩
    dsimp only
    rw [contains_eq_true_of_mem userIds u.id hin,
        withReads_any_eq db userIds now u (find?_eq_of_nodup db.users u hnd hmem) hin]
    simp
  · intro v hv hnotin
    unfold batchUpdateStreaks
    apply List.mem_map.mpr
    refine ⟨v, hv, ?_⟩
    dsimp only
    rw [contains_eq_false_of_not_mem userIds v.id hnotin]
    simp

/-- Witness for C8 at the two-user fixture, instantiated at the reader-less
user u2. -/
theorem streak_batch_written_fields_witness :
    ({ id := "u2",
       streakDays := some (if qualifyingRead streakDbPair "u2" dayTwoNoon
                           then (some 3 : Option Nat).getD 0 + 1 else 0),
       lastReadDate := some (todayUTCStart dayTwoNoon),
       updatedAt := todayUTCStart dayTwoNoon } : StreakUser)
      ∈ (executeBatch streakDbPair ["u1", "u2"] dayTwoNoon).1.users ∧
    (∀ v ∈ streakDbPair.users, v.id ∉ ["u1", "u2"] →
      v ∈ (executeBatch streakDbPair ["u1", "u2"] dayTwoNoon).1.users) :=
  streak_batch_written_fields streakDbPair ["u1", "u2"] dayTwoNoon
    ⟨"u2", some 3, some 0, 0⟩ (by decide) (by decide) (by decide)

/-- C9 amended: on a cache miss with valid input, execute returns the
computed search response exactly when the awaited cache set resolves; when
the cache set rejects, the failure propagates to the caller in place of the
response. -/
theorem search_response_requires_cache_set (repo : List Item) (input : SearchInput)
    (now elapsed : Millis)
    (hq1 : 2 ≤ input.query.length) (hq2 : input.query.length ≤ 100)
    (hl1 : 1 ≤ input.limit) (hl2 : input.limit ≤ 50) :
    searchExecute repo input none true now elapsed
      = Except.ok { toSearchResponseCore := performSearch repo input now,
                    searchTime := elapsed } ∧
    searchExecute repo input none false now elapsed
      = Except.error SearchError.cacheSetFailure := by
  have hvalid : (2 ≤ input.query.length && input.query.length ≤ 100 &&
      1 ≤ input.limit && input.limit ≤ 50) = true := by
    simp only [Bool.and_eq_true, decide_eq_true_eq]
    exact ⟨⟨⟨hq1, hq2⟩, hl1⟩, hl2⟩
  constructor
  · unfold searchExecute
    rw [hvalid]
    rfl
  · unfold searchExecute
    rw [hvalid]
    rfl

/-- Witness for C9 at the one-item repository and the two-character query. -/
theorem search_response_requires_cache_set_witness :
    searchExecute [helloItem] searchInputHe none true 0 7
      = Except.ok { toSearchResponseCore := performSearch [helloItem] searchInputHe 0,
                    searchTime := 7 } ∧
    searchExecute [helloItem] searchInputHe none false 0 7
      = Except.error SearchError.cacheSetFailure :=
  search_response_requires_cache_set [helloItem] searchInputHe 0 7
    (by decide) (by decide) (by decide) (by decide)

end Vow
